import Mathlib

/-!
Shallow embedding of the search/ranking core of the AI-RESUME-Matcher
`nlp-service/vector_store.py` (`VectorStore`): role detection, skill
extraction, Jaccard overlap, role pre-filtering, the per-candidate scoring
loop of `VectorStore.search`, and the persistence steps of
`VectorStore.build_index`.

Modelling conventions:
* Python floats are modelled as exact rationals (`ℚ`); all constants in the
  scoring path (0.70, 0.30, 1.1, 0.25, 0.22, 0.20, 0.15) are short decimals.
* Python strings are Lean `String`s; `needle in hay` is `strContains hay needle`
  (substring occurrence over the character list).
* The sentence-transformer embedding and the FAISS index are opaque
  collaborators: `search` receives the ranked neighbor list
  `(similarity, row_index)` from an abstract index function `ix : Nat → List (ℚ × Nat)`
  applied to the `k` the code computes.
* `seen_jobs` is a Python `set` holding job ids (ints) that is also probed
  with row indices; modelled as a `Finset ℤ` probed with the coerced index.
-/

/-- `matchAt needle hay`: `needle` is a prefix of `hay` (character lists). -/
def matchAt : List Char → List Char → Bool
  | [], _ => true
  | _ :: _, [] => false
  | a :: as, b :: bs => a = b && matchAt as bs

/-- `occursIn needle hay`: `needle` occurs contiguously inside `hay`. -/
def occursIn (needle : List Char) : List Char → Bool
  | [] => matchAt needle []
  | b :: bs => matchAt needle (b :: bs) || occursIn needle bs

/-- Python's `text.lower()`: character-wise lowering (all keyword and skill
tokens in this module are ASCII, where `Char.toLower` agrees with Python). -/
def lowerChars (s : String) : List Char :=
  s.data.map Char.toLower

/-- Python's `needle in hay` where `hay` is an already-lowered text. -/
def strContains (hay : List Char) (needle : String) : Bool :=
  occursIn needle.data hay

/-- Python's `s.split(',')`: split a character list at every comma. -/
def splitComma : List Char → List (List Char)
  | [] => [[]]
  | c :: cs =>
    if c = ',' then [] :: splitComma cs
    else
      match splitComma cs with
      | [] => [[c]]
      | h :: t => (c :: h) :: t

/-- The three role categories produced by `VectorStore.detect_role`. -/
inductive Role
  | fullstack
  | devops
  | general
deriving DecidableEq, Repr

/-- `fullstack_keywords` of `detect_role` (vector_store.py lines 80-84). -/
def fullstack_keywords : List String :=
  ["full stack", "full-stack", "react", "angular", "vue", "spring boot",
   "node", "express", "typescript", "javascript", "java", "frontend",
   "backend", "web developer", "software engineer", "developer"]

/-- `devops_keywords` of `detect_role` (vector_store.py lines 85-89). -/
def devops_keywords : List String :=
  ["devops", "sre", "site reliability", "terraform", "ansible", "jenkins",
   "kubernetes", "eks", "helm", "argo", "ci/cd", "docker", "infrastructure",
   "platform engineer", "cloud engineer", "aws", "azure", "gcp"]

/-- `sum(1 for k in keywords if k in t)`: how many keywords occur in `t`. -/
def kwHits (keywords : List String) (t : List Char) : Nat :=
  (keywords.filter (fun k => strContains t k)).length

/-- `fs_hits` computed on the lower-cased text (vector_store.py line 91). -/
def fsHits (text : String) : Nat := kwHits fullstack_keywords (lowerChars text)

/-- `dv_hits` computed on the lower-cased text (vector_store.py line 92). -/
def dvHits (text : String) : Nat := kwHits devops_keywords (lowerChars text)

/-- `VectorStore.detect_role` (vector_store.py lines 75-102): `t = text.lower()`,
count keyword hits, then the `if fs_hits == 0 and dv_hits == 0 / elif
fs_hits > dv_hits * 2.0 / elif dv_hits > fs_hits * 2.0 / else` chain
(`n > m * 2.0` on ints coincides with `n > m * 2` on naturals). -/
def detect_role (text : String) : Role :=
  if fsHits text = 0 ∧ dvHits text = 0 then Role.general
  else if fsHits text > dvHits text * 2 then Role.fullstack
  else if dvHits text > fsHits text * 2 then Role.devops
  else Role.general

/-- `tech_skills` of `extract_skills` (vector_store.py lines 110-115). -/
def tech_skills : List String :=
  ["java", "python", "javascript", "typescript", "react", "angular", "vue",
   "spring boot", "node.js", "express", "postgresql", "mongodb", "redis",
   "aws", "azure", "gcp", "docker", "kubernetes", "jenkins", "git",
   "hibernate", "junit", "jdbc", "html", "css", "bootstrap"]

/-- `VectorStore.extract_skills` (vector_store.py lines 104-121): the subset of
`tech_skills` occurring in the lower-cased text. -/
def extract_skills (resume_text : String) : Finset String :=
  (tech_skills.filter (fun s => strContains (lowerChars resume_text) s)).toFinset

/-- `VectorStore._jaccard_similarity` (vector_store.py lines 417-423):
0.0 when both sets are empty, else `|A ∩ B| / |A ∪ B|` (guarded by
`union > 0`, else 0.0). -/
def jaccard (set1 set2 : Finset String) : ℚ :=
  if set1 = ∅ ∧ set2 = ∅ then 0
  else if 0 < (set1 ∪ set2).card then
    ((set1 ∩ set2).card : ℚ) / ((set1 ∪ set2).card : ℚ)
  else 0

/-- One row of the job corpus as `search` sees it: the metadata columns
`id, title, company, location` plus the optional `skills` column and the
row-aligned `jd_text` column the code re-reads from the CSV. `skills = none`
models the column being absent from the loaded metadata. -/
structure JobRow where
  id : ℤ
  title : String
  company : String
  location : String
  skills : Option String
  jd_text : String
deriving DecidableEq, Repr

/-- Job-skill extraction inside the scoring loop (vector_store.py lines
345-352): use the `skills` field when present and non-empty (lower-cased,
split on commas), else fall back to `extract_skills` on the description. -/
def jobSkillsOf (row : JobRow) : Finset String :=
  match row.skills with
  | some s => if s = "" then extract_skills row.jd_text
              else ((splitComma (lowerChars s)).map String.mk).toFinset
  | none => extract_skills row.jd_text

/-- One entry of `search`'s result list: the metadata fields plus the
`score`, `similarity` and `skillOverlap` keys added at lines 382-386. -/
structure SearchResult where
  id : ℤ
  title : String
  company : String
  location : String
  score : ℚ
  similarity : ℚ
  skillOverlap : ℚ
deriving DecidableEq, Repr

/-- Role-specific `min_threshold` (vector_store.py lines 370-376). -/
def minThreshold : Role → ℚ
  | Role.fullstack => 0.25
  | Role.devops => 0.22
  | Role.general => 0.20

/-- The skip condition of the adaptive threshold (vector_store.py line 379):
`composite_score < min_threshold and (len(results) >= top_k or
composite_score < 0.15)`. -/
def thresholdSkip (role : Role) (score : ℚ) (resultCount top_k : Nat) : Prop :=
  score < minThreshold role ∧ (resultCount ≥ top_k ∨ score < 0.15)

instance (role : Role) (score : ℚ) (c k : Nat) :
    Decidable (thresholdSkip role score c k) := by
  unfold thresholdSkip; infer_instance

/-- Scoring of one accepted candidate (vector_store.py lines 354-386):
`skill_overlap` by Jaccard, composite `0.70 * semantic + 0.30 * skill`
boosted by `* 1.1` and clamped at 1.0, then attached to the job record. -/
def mkResult (row : JobRow) (sim : ℚ) (resumeSkills : Finset String) : SearchResult :=
  let overlap := jaccard resumeSkills (jobSkillsOf row)
  let composite := min ((0.70 * sim + 0.30 * overlap) * 1.1) 1
  { id := row.id, title := row.title, company := row.company,
    location := row.location, score := composite, similarity := sim,
    skillOverlap := overlap }

/-- Expanded alternatives of the fullstack title regex
`(full[- ]?stack|frontend|backend|software engineer|java developer|web developer|developer)`
(vector_store.py line 298), matched case-insensitively as substrings. -/
def fullstackTitleTerms : List String :=
  ["fullstack", "full-stack", "full stack", "frontend", "backend",
   "software engineer", "java developer", "web developer", "developer"]

/-- Alternatives of the devops title regex
`(devops|sre|site reliability|platform|infra|cloud engineer)`
(vector_store.py line 305). -/
def devopsTitleTerms : List String :=
  ["devops", "sre", "site reliability", "platform", "infra", "cloud engineer"]

/-- Case-insensitive regex containment on a title: some alternative occurs. -/
def titleMatches (terms : List String) (title : String) : Bool :=
  terms.any (fun p => strContains (lowerChars title) p)

/-- The role pre-filter (vector_store.py lines 294-309): row indices of
`filtered_metadata`. For `general` no title filter is applied, so the
filtered set is every row index. -/
def roleFilter (role : Role) (jobs : List JobRow) : List Nat :=
  match role with
  | Role.fullstack =>
      (jobs.enum.filter (fun p => titleMatches fullstackTitleTerms p.2.title)).map Prod.fst
  | Role.devops =>
      (jobs.enum.filter (fun p => titleMatches devopsTitleTerms p.2.title)).map Prod.fst
  | Role.general => List.range jobs.length

/-- The per-candidate loop of `VectorStore.search` (vector_store.py lines
328-391), iterating the ranked `(similarity, row_index)` neighbors:
1. skip when the index is out of range or already in `seen_jobs`
   (the set holds job ids but is probed with the row index too);
2. skip when the job id is already seen, else add it to `seen_jobs`;
3. skip when the role gate fires (`len(filtered) > 0 and idx not in
   filtered.index and role != "general"`);
4. score, then skip below-threshold candidates per `thresholdSkip`;
5. append and stop once `top_k` results are collected. -/
def scoreLoop (jobs : List JobRow) (filtered : List Nat) (role : Role)
    (resumeSkills : Finset String) (top_k : Nat) :
    List (ℚ × Nat) → List SearchResult → Finset ℤ → List SearchResult
  | [], results, _ => results
  | (sim, idx) :: rest, results, seen =>
    if h1 : jobs.length ≤ idx ∨ (idx : ℤ) ∈ seen then
      scoreLoop jobs filtered role resumeSkills top_k rest results seen
    else
      let row := jobs.get ⟨idx, Nat.lt_of_not_le (fun h => h1 (Or.inl h))⟩
      if row.id ∈ seen then
        scoreLoop jobs filtered role resumeSkills top_k rest results seen
      else
        let seen2 := insert row.id seen
        if 0 < filtered.length ∧ idx ∉ filtered ∧ role ≠ Role.general then
          scoreLoop jobs filtered role resumeSkills top_k rest results seen2
        else
          let r := mkResult row sim resumeSkills
          if thresholdSkip role r.score results.length top_k then
            scoreLoop jobs filtered role resumeSkills top_k rest results seen2
          else
            let results2 := results ++ [r]
            if top_k ≤ results2.length then results2
            else scoreLoop jobs filtered role resumeSkills top_k rest results2 seen2

/-- Insert a result into a score-descending list, after every result of
greater-or-equal score (preserving arrival order on ties). -/
def insertDesc (r : SearchResult) : List SearchResult → List SearchResult
  | [] => [r]
  | x :: xs => if x.score ≤ r.score then r :: x :: xs else x :: insertDesc r xs

/-- `results.sort(key=lambda x: x["score"], reverse=True)` (line 394):
Python's stable descending sort by composite score (stable sorts under a
fixed key are extensionally unique, so insertion sort models it exactly). -/
def sortResults (rs : List SearchResult) : List SearchResult :=
  rs.foldr insertDesc []

/-- `search_k = min(top_k * 20, len(self.job_metadata))` (line 312). -/
def searchK (top_k corpusSize : Nat) : Nat :=
  min (top_k * 20) corpusSize

/-- `VectorStore.search` (vector_store.py lines 270-411) with the embedding
model and FAISS index abstracted into `ix`, which returns the ranked
`(similarity, row_index)` pairs for the requested neighbor count.
Role resolution, role pre-filter, candidate retrieval with
`searchK`, resume-skill extraction (once, from the query), the scoring
loop, the descending sort, and the `validated_results` truncation
(`results[:min(top_k * 2, len(results))]`, stop at `top_k`, final
`[:top_k]` slice). -/
def search (jobs : List JobRow) (query : String) (top_k : Nat)
    (roleOpt : Option Role) (ix : Nat → List (ℚ × Nat)) : List SearchResult :=
  let role := roleOpt.getD (detect_role query)
  let filtered := roleFilter role jobs
  let neighbors := ix (searchK top_k jobs.length)
  let resumeSkills := extract_skills query
  let results := scoreLoop jobs filtered role resumeSkills top_k neighbors [] ∅
  let sorted := sortResults results
  let validated := (sorted.take (min (top_k * 2) sorted.length)).take top_k
  validated.take top_k

/-- Which persisted artifacts exist; `build_index` persists the FAISS index
blob, the row-aligned metadata, and the model fingerprint, in that order
(vector_store.py lines 184-187). -/
structure FsState where
  indexSaved : Bool
  metadataSaved : Bool
  fingerprintSaved : Bool
deriving DecidableEq, Repr

/-- The three persistence steps of `build_index`. -/
inductive SaveStep
  | index
  | metadata
  | fingerprint
deriving DecidableEq, Repr

/-- Failure kinds of the build (error taxonomy of the module):
the jobs CSV is absent, or an I/O write fails. -/
inductive BuildErr
  | corpusMissing
  | ioError
deriving DecidableEq, Repr

/-- One corpus record as `build_index` reads it: the metadata columns and
the description text embedded (the code never inspects the content of
`jd_text` before encoding it). -/
structure CorpusRow where
  id : ℤ
  title : String
  company : String
  location : String
  jd_text : String
deriving DecidableEq, Repr

/-- Environment of one `build_index` run: the corpus if the CSV exists, and
which persistence steps fail (injected I/O faults). -/
structure BuildEnv where
  corpus : Option (List CorpusRow)
  failures : List SaveStep
deriving DecidableEq, Repr

/-- `VectorStore.build_index` (vector_store.py lines 145-193) over the
persistence state: raise `FileNotFoundError` when no CSV exists (nothing
written); otherwise encode the descriptions (no validation of empty text)
and run `_save_index`, `_save_metadata`, `_save_model_fingerprint` in
sequence, each raising on an injected fault and leaving the earlier
writes in place; the surrounding `try` re-raises every exception. -/
def build_index (env : BuildEnv) (st : FsState) : Option BuildErr × FsState :=
  match env.corpus with
  | none => (some BuildErr.corpusMissing, st)
  | some _ =>
    if SaveStep.index ∈ env.failures then (some BuildErr.ioError, st)
    else
      let st1 : FsState := { st with indexSaved := true }
      if SaveStep.metadata ∈ env.failures then (some BuildErr.ioError, st1)
      else
        let st2 : FsState := { st1 with metadataSaved := true }
        if SaveStep.fingerprint ∈ env.failures then (some BuildErr.ioError, st2)
        else (none, { st2 with fingerprintSaved := true })

/-- Fixed corpus rows and neighbor lists used by concrete witnesses. -/
def cexJob : JobRow :=
  { id := 1, title := "Chef", company := "C", location := "L",
    skills := none, jd_text := "cooking" }

/-- Two-job corpus whose second row index (1) collides with the first job id. -/
def demoJobs : List JobRow :=
  [{ id := 1, title := "Backend Developer", company := "A", location := "X",
     skills := some "java", jd_text := "java backend" },
   { id := 7, title := "Frontend Developer", company := "B", location := "Y",
     skills := some "react", jd_text := "react frontend" }]

/-- Neighbor list ranking both demo rows with similarity 1. -/
def demoIx : Nat → List (ℚ × Nat) := fun _ => [(1, 0), (1, 1)]

/-- The result `search` produces for the first demo row: raw similarity 1,
no skill overlap with the empty query, composite `0.7 * 1.1 = 0.77`. -/
def demoResult : SearchResult :=
  { id := 1, title := "Backend Developer", company := "A", location := "X",
    score := 0.77, similarity := 1, skillOverlap := 0 }

/-- Fresh persistence state: nothing saved yet. -/
def emptyFs : FsState :=
  { indexSaved := false, metadataSaved := false, fingerprintSaved := false }

/-- Corpus row with an empty description text. -/
def emptyDescRow : CorpusRow :=
  { id := 1, title := "T", company := "C", location := "L", jd_text := "" }

/-- C1: during the per-candidate scoring of `search`, a candidate with
composite score `s` is accepted (the skip test of line 379 does not fire)
iff `s` is at least the role threshold — 0.25 fullstack, 0.22 devops,
0.20 general — or the accepted-result count is still below `top_k` and `s`
is not below the 0.15 floor; a score of exactly 0.15 is accepted while the
count is below `top_k`, and a score below 0.15 is always skipped. -/
theorem threshold_accept_iff (role : Role) (s : ℚ) (count top_k : Nat) :
    (¬ thresholdSkip role s count top_k ↔
      minThreshold role ≤ s ∨ (count < top_k ∧ 0.15 ≤ s)) ∧
    minThreshold Role.fullstack = 0.25 ∧
    minThreshold Role.devops = 0.22 ∧
    minThreshold Role.general = 0.20 ∧
    (s = 0.15 → count < top_k → ¬ thresholdSkip role s count top_k) ∧
    (s < 0.15 → thresholdSkip role s count top_k) := by
  have hfloor : (0.15 : ℚ) < minThreshold role := by
    cases role <;> norm_num [minThreshold]
  refine ⟨?_, rfl, rfl, rfl, ?_, ?_⟩
  · constructor
    · intro h
      rcases le_or_lt (minThreshold role) s with hle | hlt
      · exact Or.inl hle
      · refine Or.inr ⟨?_, ?_⟩
        · by_contra hc
          exact h ⟨hlt, Or.inl (Nat.le_of_not_lt hc)⟩
        · by_contra hc
          exact h ⟨hlt, Or.inr (lt_of_not_le hc)⟩
    · rintro (hle | ⟨hk, hs⟩) ⟨hlt, hor⟩
      · exact absurd hle (not_le.mpr hlt)
      · rcases hor with h1 | h2
        · exact absurd hk (Nat.not_lt.mpr h1)
        · exact absurd hs (not_le.mpr h2)
  · rintro rfl hk ⟨_, hor⟩
    rcases hor with h1 | h2
    · exact absurd hk (Nat.not_lt.mpr h1)
    · exact lt_irrefl _ h2
  · intro hs
    exact ⟨lt_trans hs hfloor, Or.inr hs⟩

/-- Witness for C1: at role fullstack with score exactly 0.15 and zero
accepted results out of `top_k = 3`, the candidate is accepted. -/
theorem threshold_accept_iff_witness :
    ((0.15 : ℚ) = 0.15 ∧ 0 < 3) ∧ ¬ thresholdSkip Role.fullstack 0.15 0 3 :=
  ⟨⟨rfl, by decide⟩,
    (threshold_accept_iff Role.fullstack 0.15 0 3).2.2.2.2.1 rfl (by decide)⟩

/-- C2 counterexample: a full `search` call in which the single candidate's
composite score is exactly 0.18, fewer than `top_k = 5` results exist, and
the candidate is returned rather than dropped. -/
theorem cex_score018_accepted :
    (search [cexJob] "zzz" 5 (some Role.general)
        (fun _ => [((18 : ℚ)/77, 0)])).map (fun r => r.score) = [0.18] ∧
    (search [cexJob] "zzz" 5 (some Role.general)
        (fun _ => [((18 : ℚ)/77, 0)])).length < 5 := by
  refine ⟨?_, ?_⟩ <;> with_unfolding_all decide

/-- C2 amended: a candidate scoring 0.18 composite is accepted exactly when
the accepted-result count is below `top_k` (0.18 clears the 0.15 floor but
no role threshold), for every role. -/
theorem threshold_018_relaxed (role : Role) (count top_k : Nat) :
    ¬ thresholdSkip role (0.18 : ℚ) count top_k ↔ count < top_k := by
  unfold thresholdSkip
  cases role <;> simp [minThreshold] <;> norm_num

/-- C3: `detect_role` always yields one of the three categories; it yields
`general` when both keyword counts are zero (in particular on the empty
string), `fullstack` exactly when the fullstack count exceeds twice the
devops count, `devops` exactly when the devops count exceeds twice the
fullstack count, and `general` in every other case. -/
theorem detect_role_spec (t : String) :
    (detect_role t = Role.fullstack ∨ detect_role t = Role.devops ∨
      detect_role t = Role.general) ∧
    (fsHits t = 0 ∧ dvHits t = 0 → detect_role t = Role.general) ∧
    (detect_role t = Role.fullstack ↔ fsHits t > 2 * dvHits t) ∧
    (detect_role t = Role.devops ↔ dvHits t > 2 * fsHits t) ∧
    (detect_role t = Role.general ↔
      ¬(fsHits t > 2 * dvHits t) ∧ ¬(dvHits t > 2 * fsHits t)) ∧
    detect_role "" = Role.general := by
  refine ⟨?_, ?_, ?_, ?_, ?_, by decide⟩ <;>
    · unfold detect_role
      split_ifs with h1 h2 h3 <;> simp_all <;> omega

/-- Witness for C3: the empty string has zero hits in both keyword sets and
is classified `general`. -/
theorem detect_role_spec_witness :
    (fsHits "" = 0 ∧ dvHits "" = 0) ∧ detect_role "" = Role.general :=
  ⟨by decide, (detect_role_spec "").2.1 (by decide)⟩

/-- C8: Jaccard similarity is symmetric, equals 1 on a non-empty set paired
with itself, and equals 0 on two empty sets. -/
theorem jaccard_algebra (A B : Finset String) :
    jaccard A B = jaccard B A ∧
    (A ≠ ∅ → jaccard A A = 1) ∧
    jaccard (∅ : Finset String) ∅ = 0 := by
  refine ⟨?_, ?_, by simp [jaccard]⟩
  · unfold jaccard
    rw [Finset.inter_comm, Finset.union_comm]
    by_cases h : A = ∅ ∧ B = ∅
    · rw [if_pos h, if_pos ⟨h.2, h.1⟩]
    · have h2 : ¬(B = ∅ ∧ A = ∅) := fun hc => h ⟨hc.2, hc.1⟩
      rw [if_neg h, if_neg h2]
  · intro hA
    have hpos : 0 < (A ∪ A).card := by
      rw [Finset.union_self]
      exact Finset.card_pos.mpr (Finset.nonempty_iff_ne_empty.mpr hA)
    have hcard : (A.card : ℚ) ≠ 0 := by
      exact_mod_cast Finset.card_ne_zero.mpr (Finset.nonempty_iff_ne_empty.mpr hA)
    unfold jaccard
    rw [if_neg (by simp [hA]), if_pos hpos, Finset.inter_self, Finset.union_self]
    exact div_self hcard

/-- Witness for C8: the singleton skill set `{java}` is non-empty and has
Jaccard similarity 1 with itself. -/
theorem jaccard_algebra_witness :
    (({"java"} : Finset String) ≠ ∅) ∧
    jaccard ({"java"} : Finset String) {"java"} = 1 :=
  ⟨by decide, (jaccard_algebra {"java"} {"java"}).2.1 (by decide)⟩

/-- C9 counterexample: with the corpus present, an I/O fault at the metadata
step makes `build_index` raise with the index blob newly persisted and
neither metadata nor fingerprint written (partial persistence); and a
corpus whose only record has an empty description builds successfully
(no raise), contradicting the claimed all-or-nothing validation. -/
theorem cex_build_partial_persist :
    (build_index { corpus := some [emptyDescRow], failures := [SaveStep.metadata] }
        emptyFs =
      (some BuildErr.ioError,
        { indexSaved := true, metadataSaved := false, fingerprintSaved := false })) ∧
    (build_index { corpus := some [emptyDescRow], failures := [] } emptyFs).1 = none := by
  exact ⟨rfl, rfl⟩

/-- C9 amended: a missing corpus makes `build_index` raise with the
persistence state unchanged; a present corpus with no I/O fault builds
fully (empty description text is not validated and never causes a
failure); an I/O fault at the metadata step raises but leaves the index
blob persisted, so failures after the first save step are not
all-or-nothing. -/
theorem build_index_amended (rows : List CorpusRow) (fl : List SaveStep)
    (st : FsState) :
    (build_index { corpus := none, failures := fl } st =
      (some BuildErr.corpusMissing, st)) ∧
    (build_index { corpus := some rows, failures := [] } st =
      (none, { indexSaved := true, metadataSaved := true, fingerprintSaved := true })) ∧
    (build_index { corpus := some rows, failures := [SaveStep.metadata] } st =
      (some BuildErr.ioError, { st with indexSaved := true })) := by
  refine ⟨rfl, rfl, rfl⟩

/-- Helper: every element the scoring loop emits is an initial result or was
built by `mkResult` from an in-range corpus row that passed the role gate. -/
theorem scoreLoop_mem (jobs : List JobRow) (filtered : List Nat) (role : Role)
    (rs : Finset String) (tk : Nat) :
    ∀ (neighbors : List (ℚ × Nat)) (init : List SearchResult) (seen : Finset ℤ)
      (r : SearchResult),
      r ∈ scoreLoop jobs filtered role rs tk neighbors init seen →
      r ∈ init ∨ ∃ sim : ℚ, ∃ idx : Nat, ∃ h : idx < jobs.length,
        ¬(0 < filtered.length ∧ idx ∉ filtered ∧ role ≠ Role.general) ∧
        r = mkResult (jobs.get ⟨idx, h⟩) sim rs := by
  intro neighbors
  induction neighbors with
  | nil =>
    intro init seen r hr
    simp only [scoreLoop] at hr
    exact Or.inl hr
  | cons c rest ih =>
    obtain ⟨sim, idx⟩ := c
    intro init seen r hr
    simp only [scoreLoop] at hr
    split_ifs at hr with h1 h2 h3 h4 h5
    · exact ih _ _ r hr
    · exact ih _ _ r hr
    · exact ih _ _ r hr
    · exact ih _ _ r hr
    · rcases List.mem_append.mp hr with hin | hnew
      · exact Or.inl hin
      · right
        refine ⟨sim, idx, Nat.lt_of_not_le (fun hh => h1 (Or.inl hh)), h3, ?_⟩
        simpa using hnew
    · rcases ih _ _ r hr with hin | hex
      · rcases List.mem_append.mp hin with hin2 | hnew
        · exact Or.inl hin2
        · right
          refine ⟨sim, idx, Nat.lt_of_not_le (fun hh => h1 (Or.inl hh)), h3, ?_⟩
          simpa using hnew
      · exact Or.inr hex

/-- Helper: the scoring loop preserves distinctness of result job ids, given
that every initial result id is already recorded in `seen_jobs`. -/
theorem scoreLoop_nodup (jobs : List JobRow) (filtered : List Nat) (role : Role)
    (rs : Finset String) (tk : Nat) :
    ∀ (neighbors : List (ℚ × Nat)) (init : List SearchResult) (seen : Finset ℤ),
      (init.map (fun r => r.id)).Nodup →
      (∀ r ∈ init, r.id ∈ seen) →
      ((scoreLoop jobs filtered role rs tk neighbors init seen).map
        (fun r => r.id)).Nodup := by
  intro neighbors
  induction neighbors with
  | nil =>
    intro init seen hnd hsub
    simpa only [scoreLoop] using hnd
  | cons c rest ih =>
    obtain ⟨sim, idx⟩ := c
    intro init seen hnd hsub
    simp only [scoreLoop]
    split_ifs with h1 h2 h3 h4 h5
    · exact ih init seen hnd hsub
    · exact ih init seen hnd hsub
    · exact ih init _ hnd (fun r hr => Finset.mem_insert_of_mem (hsub r hr))
    · exact ih init _ hnd (fun r hr => Finset.mem_insert_of_mem (hsub r hr))
    · rw [List.map_append]
      refine List.Nodup.append hnd (by simp) ?_
      intro a ha hb
      simp only [List.mem_map] at ha hb
      obtain ⟨x, hx, rfl⟩ := ha
      obtain ⟨y, hy, hyid⟩ := hb
      simp only [List.mem_singleton] at hy
      subst hy
      apply h2
      have hxid := hsub x hx
      rw [← hyid] at hxid
      exact hxid
    · refine ih _ _ ?_ ?_
      · rw [List.map_append]
        refine List.Nodup.append hnd (by simp) ?_
        intro a ha hb
        simp only [List.mem_map] at ha hb
        obtain ⟨x, hx, rfl⟩ := ha
        obtain ⟨y, hy, hyid⟩ := hb
        simp only [List.mem_singleton] at hy
        subst hy
        apply h2
        have hxid := hsub x hx
        rw [← hyid] at hxid
        exact hxid
      · intro r hr
        rcases List.mem_append.mp hr with hin | hnew
        · exact Finset.mem_insert_of_mem (hsub r hin)
        · simp only [List.mem_singleton] at hnew
          subst hnew
          exact Finset.mem_insert_self _ _

/-- Helper: the scoring loop appends at most one result per neighbor. -/
theorem scoreLoop_length (jobs : List JobRow) (filtered : List Nat) (role : Role)
    (rs : Finset String) (tk : Nat) :
    ∀ (neighbors : List (ℚ × Nat)) (init : List SearchResult) (seen : Finset ℤ),
      (scoreLoop jobs filtered role rs tk neighbors init seen).length ≤
        init.length + neighbors.length := by
  intro neighbors
  induction neighbors with
  | nil =>
    intro init seen
    simp [scoreLoop]
  | cons c rest ih =>
    obtain ⟨sim, idx⟩ := c
    intro init seen
    simp only [scoreLoop]
    split_ifs with h1 h2 h3 h4 h5
    · exact le_trans (ih init seen) (by simp)
    · exact le_trans (ih init seen) (by simp)
    · exact le_trans (ih init _) (by simp)
    · exact le_trans (ih init _) (by simp)
    · simp
    · refine le_trans (ih _ _) ?_
      simp
      omega

/-- Helper: inserting into the descending list is a permutation of consing. -/
theorem insertDesc_perm (r : SearchResult) (l : List SearchResult) :
    (insertDesc r l).Perm (r :: l) := by
  induction l with
  | nil => simp [insertDesc]
  | cons x xs ih =>
    rw [insertDesc]
    by_cases h : x.score ≤ r.score
    · rw [if_pos h]
    · rw [if_neg h]
      exact (ih.cons x).trans (List.Perm.swap r x xs)

/-- Helper: the stable descending sort permutes its input. -/
theorem sortResults_perm (l : List SearchResult) :
    (sortResults l).Perm l := by
  induction l with
  | nil => simp [sortResults]
  | cons x xs ih =>
    have hfold : sortResults (x :: xs) = insertDesc x (sortResults xs) := rfl
    rw [hfold]
    exact (insertDesc_perm x _).trans (ih.cons x)

/-- C4: every result `search` returns carries `skillOverlap` equal to the
Jaccard similarity between the query's skill set (extracted once from the
query text) and the skill set of the corpus row it was built from, and its
composite score equals `min(1.1 * (0.70 * similarity + 0.30 * skillOverlap), 1)`. -/
theorem search_composite_score (jobs : List JobRow) (query : String)
    (top_k : Nat) (roleOpt : Option Role) (ix : Nat → List (ℚ × Nat))
    (r : SearchResult) (hr : r ∈ search jobs query top_k roleOpt ix) :
    ∃ idx : Nat, ∃ h : idx < jobs.length,
      r.skillOverlap = jaccard (extract_skills query) (jobSkillsOf (jobs.get ⟨idx, h⟩)) ∧
      r.score = min (1.1 * (0.70 * r.similarity + 0.30 * r.skillOverlap)) 1 := by
  unfold search at hr
  have h1 : r ∈ sortResults (scoreLoop jobs (roleFilter (roleOpt.getD (detect_role query)) jobs)
      (roleOpt.getD (detect_role query)) (extract_skills query) top_k
      (ix (searchK top_k jobs.length)) [] ∅) :=
    List.take_subset _ _ (List.take_subset _ _ (List.take_subset _ _ hr))
  have h2 := (sortResults_perm _).mem_iff.mp h1
  rcases scoreLoop_mem _ _ _ _ _ _ _ _ r h2 with h3 | ⟨sim, idx, h, hgate, heq⟩
  · exact absurd h3 (List.not_mem_nil r)
  · refine ⟨idx, h, ?_, ?_⟩
    · subst heq
      simp [mkResult]
    · subst heq
      simp only [mkResult]
      rw [mul_comm]

/-- Witness for C4: the demo search returns `demoResult`, whose overlap and
composite score satisfy the stated equations. -/
theorem search_composite_score_witness :
    demoResult ∈ search demoJobs "" 5 (some Role.general) demoIx ∧
    (∃ idx : Nat, ∃ h : idx < demoJobs.length,
      demoResult.skillOverlap =
        jaccard (extract_skills "") (jobSkillsOf (demoJobs.get ⟨idx, h⟩)) ∧
      demoResult.score =
        min (1.1 * (0.70 * demoResult.similarity + 0.30 * demoResult.skillOverlap)) 1) :=
  ⟨by with_unfolding_all decide,
    search_composite_score demoJobs "" 5 (some Role.general) demoIx demoResult
      (by with_unfolding_all decide)⟩

/-- C5: for role fullstack or devops, when the case-insensitive title
pre-filter keeps at least one row, every returned result corresponds to a
pre-filtered row (hard gate); for role general the filtered set is all rows
(no title filter). -/
theorem search_role_filter_gate (jobs : List JobRow) (query : String)
    (top_k : Nat) (role : Role) (ix : Nat → List (ℚ × Nat))
    (hrole : role ≠ Role.general) (hne : roleFilter role jobs ≠ []) :
    (∀ r ∈ search jobs query top_k (some role) ix,
      ∃ idx, idx ∈ roleFilter role jobs ∧ ∃ h : idx < jobs.length,
        r.id = (jobs.get ⟨idx, h⟩).id ∧ r.title = (jobs.get ⟨idx, h⟩).title) ∧
    roleFilter Role.general jobs = List.range jobs.length := by
  refine ⟨?_, rfl⟩
  intro r hr
  unfold search at hr
  have h1 : r ∈ sortResults (scoreLoop jobs (roleFilter ((some role).getD (detect_role query)) jobs)
      ((some role).getD (detect_role query)) (extract_skills query) top_k
      (ix (searchK top_k jobs.length)) [] ∅) :=
    List.take_subset _ _ (List.take_subset _ _ (List.take_subset _ _ hr))
  have h2 := (sortResults_perm _).mem_iff.mp h1
  simp only [Option.getD] at h2
  rcases scoreLoop_mem _ _ _ _ _ _ _ _ r h2 with h3 | ⟨sim, idx, h, hgate, heq⟩
  · exact absurd h3 (List.not_mem_nil r)
  · refine ⟨idx, ?_, h, by rw [heq]; rfl, by rw [heq]; rfl⟩
    by_contra hc
    exact hgate ⟨List.length_pos.mpr hne, hc, hrole⟩

/-- Witness for C5: on the two-row demo corpus, the fullstack pre-filter is
non-empty and the returned result corresponds to a pre-filtered row. -/
theorem search_role_filter_gate_witness :
    (Role.fullstack ≠ Role.general ∧ roleFilter Role.fullstack demoJobs ≠ []) ∧
    ((∀ r ∈ search demoJobs "" 5 (some Role.fullstack) demoIx,
        ∃ idx, idx ∈ roleFilter Role.fullstack demoJobs ∧
          ∃ h : idx < demoJobs.length,
            r.id = (demoJobs.get ⟨idx, h⟩).id ∧
            r.title = (demoJobs.get ⟨idx, h⟩).title) ∧
      roleFilter Role.general demoJobs = List.range demoJobs.length) :=
  ⟨⟨by decide, by decide⟩,
    search_role_filter_gate demoJobs "" 5 Role.fullstack demoIx
      (by decide) (by decide)⟩

/-- C6: the job ids of the results of any `search` call are pairwise
distinct — if two index rows resolve to the same job id, at most one of
them appears (deduplication by job id). -/
theorem search_results_dedup (jobs : List JobRow) (query : String)
    (top_k : Nat) (roleOpt : Option Role) (ix : Nat → List (ℚ × Nat)) :
    ((search jobs query top_k roleOpt ix).map (fun r => r.id)).Nodup := by
  unfold search
  have hL : ((scoreLoop jobs (roleFilter (roleOpt.getD (detect_role query)) jobs)
      (roleOpt.getD (detect_role query)) (extract_skills query) top_k
      (ix (searchK top_k jobs.length)) [] ∅).map (fun r => r.id)).Nodup :=
    scoreLoop_nodup _ _ _ _ _ _ _ _ (by simp) (by simp)
  have hperm := ((sortResults_perm _).map (fun r => r.id)).nodup_iff.mpr hL
  have hsub : ((((sortResults (scoreLoop jobs
      (roleFilter (roleOpt.getD (detect_role query)) jobs)
      (roleOpt.getD (detect_role query)) (extract_skills query) top_k
      (ix (searchK top_k jobs.length)) [] ∅)).take
        (min (top_k * 2) (sortResults (scoreLoop jobs
          (roleFilter (roleOpt.getD (detect_role query)) jobs)
          (roleOpt.getD (detect_role query)) (extract_skills query) top_k
          (ix (searchK top_k jobs.length)) [] ∅)).length)).take top_k).take top_k).Sublist
      (sortResults (scoreLoop jobs (roleFilter (roleOpt.getD (detect_role query)) jobs)
        (roleOpt.getD (detect_role query)) (extract_skills query) top_k
        (ix (searchK top_k jobs.length)) [] ∅)) :=
    ((List.take_sublist _ _).trans (List.take_sublist _ _)).trans (List.take_sublist _ _)
  exact List.Nodup.sublist (hsub.map (fun r => r.id)) hperm

/-- C7: for positive `top_k`, when the vector index returns exactly the
requested `searchK top_k corpus_size` neighbors, `search` returns at most
`top_k` results and at most `corpus_size` results (never raising for
`top_k` beyond the corpus size — the model is total), and the requested
neighbor count is `min(top_k * 20, corpus_size)`. -/
theorem search_topk_bound (jobs : List JobRow) (query : String) (top_k : Nat)
    (roleOpt : Option Role) (ix : Nat → List (ℚ × Nat)) (htk : 0 < top_k)
    (hix : (ix (searchK top_k jobs.length)).length = searchK top_k jobs.length) :
    (search jobs query top_k roleOpt ix).length ≤ top_k ∧
    (search jobs query top_k roleOpt ix).length ≤ jobs.length ∧
    searchK top_k jobs.length = min (top_k * 20) jobs.length := by
  refine ⟨?_, ?_, rfl⟩
  · unfold search
    exact List.length_take_le _ _
  · unfold search
    have hlen : (scoreLoop jobs (roleFilter (roleOpt.getD (detect_role query)) jobs)
        (roleOpt.getD (detect_role query)) (extract_skills query) top_k
        (ix (searchK top_k jobs.length)) [] ∅).length ≤
        (ix (searchK top_k jobs.length)).length := by
      simpa using scoreLoop_length jobs
        (roleFilter (roleOpt.getD (detect_role query)) jobs)
        (roleOpt.getD (detect_role query)) (extract_skills query) top_k
        (ix (searchK top_k jobs.length)) [] ∅
    have hsort := (sortResults_perm (scoreLoop jobs
        (roleFilter (roleOpt.getD (detect_role query)) jobs)
        (roleOpt.getD (detect_role query)) (extract_skills query) top_k
        (ix (searchK top_k jobs.length)) [] ∅)).length_eq
    calc ((((sortResults _).take _).take top_k).take top_k).length
        ≤ (sortResults _).length :=
          (((List.take_sublist _ _).trans (List.take_sublist _ _)).trans
            (List.take_sublist _ _)).length_le
      _ ≤ jobs.length := by
          rw [hsort]
          refine le_trans hlen ?_
          rw [hix]
          exact min_le_right _ _

/-- Witness for C7: a one-job corpus searched with `top_k = 5` and an index
returning the requested neighbor count satisfies both bounds. -/
theorem search_topk_bound_witness :
    (0 < 5 ∧ ((fun k => List.replicate k ((0 : ℚ), 0)) (searchK 5 [cexJob].length)).length =
        searchK 5 [cexJob].length) ∧
    ((search [cexJob] "q" 5 (some Role.general)
        (fun k => List.replicate k ((0 : ℚ), 0))).length ≤ 5 ∧
      (search [cexJob] "q" 5 (some Role.general)
        (fun k => List.replicate k ((0 : ℚ), 0))).length ≤ [cexJob].length ∧
      searchK 5 [cexJob].length = min (5 * 20) [cexJob].length) :=
  ⟨⟨by decide, by decide⟩,
    search_topk_bound [cexJob] "q" 5 (some Role.general)
      (fun k => List.replicate k ((0 : ℚ), 0)) (by decide) (by decide)⟩

/-- C10: the `seen_jobs` set stores job ids but the loop also tests the row
index against it (line 329), so a candidate whose row index is already in
the set — because it equals some earlier candidate's job id — is skipped
outright, regardless of its own (possibly unseen) job id; on the demo
corpus the job with id 7 at row 1 is omitted solely because row index 1
collides with the previously seen job id 1. -/
theorem search_idx_id_collision :
    (∀ (jobs : List JobRow) (filtered : List Nat) (role : Role)
       (rs : Finset String) (tk : Nat) (sim : ℚ) (idx : Nat)
       (rest : List (ℚ × Nat)) (results : List SearchResult) (seen : Finset ℤ),
      (idx : ℤ) ∈ seen →
      scoreLoop jobs filtered role rs tk ((sim, idx) :: rest) results seen =
        scoreLoop jobs filtered role rs tk rest results seen) ∧
    (search demoJobs "" 5 (some Role.general) demoIx).map (fun r => r.id) = [1] := by
  constructor
  · intro jobs filtered role rs tk sim idx rest results seen hmem
    simp only [scoreLoop]
    rw [dif_pos (Or.inr hmem)]
  · with_unfolding_all decide

/-- Witness for C10: with row index 5 already in `seen_jobs` (as a job id),
the candidate at row 5 is skipped without touching the state. -/
theorem search_idx_id_collision_witness :
    ((5 : ℤ) ∈ ({5} : Finset ℤ)) ∧
    scoreLoop [] [] Role.general ∅ 0 [((0 : ℚ), 5)] [] {5} =
      scoreLoop [] [] Role.general ∅ 0 [] [] {5} :=
  ⟨by decide,
    search_idx_id_collision.1 [] [] Role.general ∅ 0 0 5 [] [] {5} (by decide)⟩
